import Mathlib

/- Shallow embedding of the in-memory message-board store and its HTTP
   handlers (routes/api.js).  Timestamps are modelled as Nat instants
   supplied per request.  JS `Array.prototype.sort` is spec-mandated
   stable, and a stable sort's output is determined by the comparator and
   the input order, so it is embedded as a stable insertion sort.
   bcrypt hashing is modelled as an injective tagging function, so that
   `compare pw h` succeeds exactly when `h` is the hash of `pw`. -/

namespace MessageBoard

/-- JSON-like values, modelling the JS objects sent as response bodies. -/
inductive Json where
  | num (n : Nat)
  | str (s : String)
  | boolVal (b : Bool)
  | arr (elems : List Json)
  | obj (fields : List (String × Json))

/-- Stored reply record.  `text` is `Option String` because the reply
handler performs no validation and JS would store `undefined` when the
body lacks a `text` field. -/
structure Reply where
  reply_id : Nat
  text : Option String
  delete_password : String
  created_on : Nat
  reported : Bool
deriving Repr, DecidableEq

/-- Stored thread record, as built by the POST threads handler. -/
structure Thread where
  _id : Nat
  board : String
  text : String
  delete_password : String
  created_on : Nat
  bumped_on : Nat
  reported : Bool
  replies : List Reply
deriving Repr, DecidableEq

/-- The `threadStorage` object: thread list plus the two id counters. -/
structure State where
  threads : List Thread
  nextThreadId : Nat
  nextReplyId : Nat
deriving Repr, DecidableEq

/-- Initial storage: `threads: [], nextThreadId: 1, nextReplyId: 1`. -/
def emptyState : State := { threads := [], nextThreadId := 1, nextReplyId := 1 }

/-- Model of `bcrypt.hash` with a fixed salt: an injective tag. -/
def bcryptHash (pw : String) : String := "bcrypt$2b$10$" ++ pw

/-- Model of `bcrypt.compare`: succeeds exactly on the hashed password. -/
def bcryptCompare (pw h : String) : Bool := bcryptHash pw == h

/-- JS falsiness of a possibly-missing string field: `undefined` and the
empty string are falsy. -/
def falsy : Option String → Bool
  | none => true
  | some s => s == ""

/-- Model of `delete obj.k` on an object rendered as a key/value list. -/
def jsDelete (k : String) (fields : List (String × Json)) : List (String × Json) :=
  fields.filter (fun kv => kv.1 != k)

/-- Property lookup on an object rendered as a key/value list. -/
def jsonField (fields : List (String × Json)) (k : String) : Option Json :=
  (fields.find? (fun kv => kv.1 == k)).map (fun kv => kv.2)

/-- All own properties of a stored reply, in literal order; an
`undefined` text is dropped, as JSON serialization drops it. -/
def replyJsonFull (r : Reply) : List (String × Json) :=
  [("reply_id", Json.num r.reply_id)] ++
  (match r.text with
   | some t => [("text", Json.str t)]
   | none => []) ++
  [("delete_password", Json.str r.delete_password),
   ("created_on", Json.num r.created_on),
   ("reported", Json.boolVal r.reported)]

/-- The destructuring `const { delete_password, reported, ...safeReply }`:
every own property except those two keys. -/
def replyView (r : Reply) : List (String × Json) :=
  jsDelete "reported" (jsDelete "delete_password" (replyJsonFull r))

/-- All own properties of a stored thread, in literal order, replies
serialized in full. -/
def threadJsonFull (t : Thread) : List (String × Json) :=
  [("_id", Json.num t._id),
   ("board", Json.str t.board),
   ("text", Json.str t.text),
   ("delete_password", Json.str t.delete_password),
   ("created_on", Json.num t.created_on),
   ("bumped_on", Json.num t.bumped_on),
   ("reported", Json.boolVal t.reported),
   ("replies", Json.arr (t.replies.map (fun r => Json.obj (replyJsonFull r))))]

/-- Stable descending sort of replies by `created_on`, the meaning of
`replies.sort((a, b) => b.created_on - a.created_on)`. -/
def repliesDesc (rs : List Reply) : List Reply :=
  List.insertionSort (fun a b => b.created_on ≤ a.created_on) rs

/-- Stable descending sort of threads by `bumped_on`, the meaning of
`.sort((a, b) => b.bumped_on - a.bumped_on)`. -/
def threadsDesc (ts : List Thread) : List Thread :=
  List.insertionSort (fun a b => b.bumped_on ≤ a.bumped_on) ts

/-- The view of one thread produced inside `getRecentThreads`: a shallow
copy whose `replies` property is reassigned to the 3 most recent reply
views, then `delete_password` and `reported` are deleted. -/
def threadView (t : Thread) : List (String × Json) :=
  let newReplies :=
    Json.arr (((repliesDesc t.replies).take 3).map (fun r => Json.obj (replyView r)))
  let threadCopy :=
    (threadJsonFull t).map (fun kv => if kv.1 == "replies" then (kv.1, newReplies) else kv)
  jsDelete "reported" (jsDelete "delete_password" threadCopy)

/-- The filtered, sorted, truncated window of threads that
`getRecentThreads` selects for a board. -/
def boardWindow (s : State) (board : String) (limit : Nat) : List Thread :=
  (threadsDesc (s.threads.filter (fun t => t.board == board))).take limit

/-- Embedding of `threadStorage.getRecentThreads(board, limit)`.  Besides
the returned views it yields the post-call store: `thread.replies.sort`
sorts each selected thread's stored replies array in place, so every
thread in the window comes back with its replies re-sorted. -/
def getRecentThreads (s : State) (board : String) (limit : Nat) :
    List (List (String × Json)) × State :=
  let boardThreads := boardWindow s board limit
  let views := boardThreads.map threadView
  let newThreads := s.threads.map (fun t =>
    if t ∈ boardThreads then { t with replies := repliesDesc t.replies } else t)
  (views, { s with threads := newThreads })

/-- An HTTP response: status code and JSON body. -/
structure Resp where
  status : Nat
  body : Json

/-- Error body `{ error: msg }`. -/
def errJson (msg : String) : Json := Json.obj [("error", Json.str msg)]

/-- Message body `{ message: msg }`. -/
def msgJson (m : String) : Json := Json.obj [("message", Json.str m)]

/-- Embedding of `GET /api/threads/:board`. -/
def getThreads (s : State) (board : String) : Resp × State :=
  let vs := getRecentThreads s board 10
  ({ status := 200, body := Json.arr (vs.1.map Json.obj) }, vs.2)

/-- Body of `POST /api/threads/:board`; each field may be absent. -/
structure ThreadPostBody where
  board : Option String
  text : Option String
  delete_password : Option String
deriving Repr, DecidableEq

/-- Embedding of `POST /api/threads/:board`.  The handler reads `board`
from the request body, never from `pathBoard` (the `:board` path
segment), and rejects when any of the three body fields is falsy. -/
def postThread (s : State) (pathBoard : String) (body : ThreadPostBody) (now : Nat) :
    Resp × State :=
  if falsy body.board || falsy body.text || falsy body.delete_password then
    ({ status := 400,
       body := errJson "Missing required fields: board, text, or delete_password" }, s)
  else
    match body.board, body.text, body.delete_password with
    | some board, some text, some pw =>
      let hashedPassword := bcryptHash pw
      let newThread : Thread :=
        { _id := s.nextThreadId, board := board, text := text,
          delete_password := hashedPassword, created_on := now, bumped_on := now,
          reported := false, replies := [] }
      let s' : State :=
        { s with threads := s.threads ++ [newThread],
                 nextThreadId := s.nextThreadId + 1 }
      let responseThread :=
        jsDelete "reported" (jsDelete "delete_password" (threadJsonFull newThread))
      ({ status := 201, body := Json.obj responseThread }, s')
    | _, _, _ =>
      ({ status := 400,
         body := errJson "Missing required fields: board, text, or delete_password" }, s)

/-- Replace the first element satisfying `p`, the value-level meaning of
`threads.find(...)` followed by mutation of the found object. -/
def updateFirst (p : α → Bool) (f : α → α) : List α → List α
  | [] => []
  | x :: xs => if p x then f x :: xs else x :: updateFirst p f xs

/-- Combined `findIndex` plus element access at that index. -/
def findWithIdx (p : α → Bool) : List α → Option (Nat × α)
  | [] => none
  | x :: xs =>
    if p x then some (0, x)
    else (findWithIdx p xs).map (fun ia => (ia.1 + 1, ia.2))

/-- The lookup both thread-scoped handlers use:
`threads.find(t => t._id === _id && t.board === board)`. -/
def findThread (s : State) (tid : Nat) (board : String) : Option Thread :=
  s.threads.find? (fun t => t._id == tid && t.board == board)

/-- Embedding of `DELETE /api/threads/:board`.  A missing password would
throw inside `bcrypt.compare`; the modelled inputs carry a string. -/
def deleteThread (s : State) (board : String) (tid : Nat) (delete_password : String) :
    Resp × State :=
  match findThread s tid board with
  | none => ({ status := 404, body := errJson "Thread not found" }, s)
  | some thread =>
    if bcryptCompare delete_password thread.delete_password then
      ({ status := 200, body := msgJson "Thread deleted successfully" },
       { s with threads := s.threads.filter (fun t => t._id != tid || t.board != board) })
    else
      ({ status := 403, body := errJson "Incorrect delete password" }, s)

/-- Embedding of `POST /api/replies/:board`.  The handler validates
nothing beyond the thread lookup: text and password are used as given.
A missing (`undefined`) password makes `bcrypt.hash` throw, which the
surrounding try/catch turns into a 500 with the store untouched. -/
def postReply (s : State) (board : String) (tid : Nat)
    (text : Option String) (delete_password : Option String) (now : Nat) :
    Resp × State :=
  match findThread s tid board with
  | none => ({ status := 404, body := errJson "Thread not found" }, s)
  | some _ =>
    match delete_password with
    | none => ({ status := 500, body := errJson "Internal server error" }, s)
    | some pw =>
      let newReply : Reply :=
        { reply_id := s.nextReplyId, text := text,
          delete_password := bcryptHash pw, created_on := now, reported := false }
      let newThreads :=
        updateFirst (fun t => t._id == tid && t.board == board)
          (fun t => { t with replies := t.replies ++ [newReply], bumped_on := now })
          s.threads
      let responseReply :=
        jsDelete "reported" (jsDelete "delete_password" (replyJsonFull newReply))
      ({ status := 201, body := Json.obj responseReply },
       { s with threads := newThreads, nextReplyId := s.nextReplyId + 1 })

/-- Embedding of `DELETE /api/replies/:board`. -/
def deleteReply (s : State) (board : String) (tid : Nat) (reply_id : Nat)
    (delete_password : String) : Resp × State :=
  match findThread s tid board with
  | none => ({ status := 404, body := errJson "Thread not found" }, s)
  | some thread =>
    match findWithIdx (fun r => r.reply_id == reply_id) thread.replies with
    | none => ({ status := 404, body := errJson "Reply not found" }, s)
    | some ir =>
      if bcryptCompare delete_password ir.2.delete_password then
        let newThreads :=
          updateFirst (fun t => t._id == tid && t.board == board)
            (fun t => { t with replies := t.replies.eraseIdx ir.1 })
            s.threads
        ({ status := 200, body := msgJson "Reply deleted successfully" },
         { s with threads := newThreads })
      else
        ({ status := 403, body := errJson "Incorrect delete password" }, s)

/-- Embedding of `PUT /api/threads/:board`: mark the thread reported. -/
def reportThread (s : State) (board : String) (tid : Nat) : Resp × State :=
  match findThread s tid board with
  | none => ({ status := 404, body := errJson "Thread not found" }, s)
  | some _ =>
    let newThreads :=
      updateFirst (fun t => t._id == tid && t.board == board)
        (fun t => { t with reported := true }) s.threads
    ({ status := 200, body := msgJson "Thread reported successfully" },
     { s with threads := newThreads })

/-- Embedding of `PUT /api/replies/:board`: mark the reply reported. -/
def reportReply (s : State) (board : String) (tid : Nat) (reply_id : Nat) :
    Resp × State :=
  match findThread s tid board with
  | none => ({ status := 404, body := errJson "Thread not found" }, s)
  | some thread =>
    match thread.replies.find? (fun r => r.reply_id == reply_id) with
    | none => ({ status := 404, body := errJson "Reply not found" }, s)
    | some _ =>
      let markReply := fun (t : Thread) =>
        { t with replies :=
            (updateFirst (fun r => r.reply_id == reply_id)
              (fun r => { r with reported := true }) t.replies) }
      let newThreads :=
        updateFirst (fun t => t._id == tid && t.board == board) markReply s.threads
      ({ status := 200, body := msgJson "Reply reported successfully" },
       { s with threads := newThreads })

/-- One API request, for reasoning about operation sequences. -/
inductive Op where
  | getOp (board : String)
  | postOp (pathBoard : String) (body : ThreadPostBody) (now : Nat)
  | deleteThreadOp (board : String) (tid : Nat) (pw : String)
  | replyOp (board : String) (tid : Nat) (text : Option String)
      (pw : Option String) (now : Nat)
  | deleteReplyOp (board : String) (tid : Nat) (rid : Nat) (pw : String)
  | reportThreadOp (board : String) (tid : Nat)
  | reportReplyOp (board : String) (tid : Nat) (rid : Nat)

/-- Dispatch one request against the store. -/
def applyOp (s : State) : Op → Resp × State
  | Op.getOp board => getThreads s board
  | Op.postOp pathBoard body now => postThread s pathBoard body now
  | Op.deleteThreadOp board tid pw => deleteThread s board tid pw
  | Op.replyOp board tid text pw now => postReply s board tid text pw now
  | Op.deleteReplyOp board tid rid pw => deleteReply s board tid rid pw
  | Op.reportThreadOp board tid => reportThread s board tid
  | Op.reportReplyOp board tid rid => reportReply s board tid rid

/-- Run a request sequence, keeping only the final store. -/
def runOps (s : State) : List Op → State
  | [] => s
  | op :: ops => runOps (applyOp s op).2 ops

/-- Thread identifier issued by one request, if any: a successful thread
creation issues the current `nextThreadId`. -/
def threadIdHead (s : State) : Op → List Nat
  | Op.postOp pathBoard body now =>
    if (postThread s pathBoard body now).1.status == 201 then [s.nextThreadId] else []
  | _ => []

/-- Reply identifier issued by one request, if any. -/
def replyIdHead (s : State) : Op → List Nat
  | Op.replyOp board tid text pw now =>
    if (postReply s board tid text pw now).1.status == 201 then [s.nextReplyId] else []
  | _ => []

/-- Thread identifiers issued by a request sequence, in order. -/
def threadIdsIssued (s : State) : List Op → List Nat
  | [] => []
  | op :: ops => threadIdHead s op ++ threadIdsIssued (applyOp s op).2 ops

/-- Reply identifiers issued by a request sequence, in order. -/
def replyIdsIssued (s : State) : List Op → List Nat
  | [] => []
  | op :: ops => replyIdHead s op ++ replyIdsIssued (applyOp s op).2 ops

/-- Board field of a thread view. -/
def viewBoard (v : List (String × Json)) : Option String :=
  match jsonField v "board" with
  | some (Json.str b) => some b
  | _ => none

/-- The `bumped_on` field of a thread view (0 when absent). -/
def viewBumped (v : List (String × Json)) : Nat :=
  match jsonField v "bumped_on" with
  | some (Json.num n) => n
  | _ => 0

/-- Identifier field of a thread view. -/
def viewId (v : List (String × Json)) : Option Nat :=
  match jsonField v "_id" with
  | some (Json.num n) => some n
  | _ => none

/-- Replies array of a thread view. -/
def viewReplies (v : List (String × Json)) : Option (List Json) :=
  match jsonField v "replies" with
  | some (Json.arr rs) => some rs
  | _ => none

/-- Creation time of a serialized reply (0 when absent). -/
def replyCreated (j : Json) : Nat :=
  match j with
  | Json.obj fields =>
    (match jsonField fields "created_on" with
     | some (Json.num n) => n
     | _ => 0)
  | _ => 0

theorem viewBoard_threadView (t : Thread) : viewBoard (threadView t) = some t.board := rfl

theorem viewBumped_threadView (t : Thread) : viewBumped (threadView t) = t.bumped_on := rfl

theorem viewId_threadView (t : Thread) : viewId (threadView t) = some t._id := rfl

theorem viewReplies_threadView (t : Thread) :
    viewReplies (threadView t) =
      some (((repliesDesc t.replies).take 3).map (fun r => Json.obj (replyView r))) := rfl

theorem replyCreated_replyView (r : Reply) :
    replyCreated (Json.obj (replyView r)) = r.created_on := by
  rcases r with ⟨rid, text, dp, co, rep⟩
  cases text <;> rfl

theorem threadsDesc_sorted (ts : List Thread) :
    (threadsDesc ts).Pairwise (fun a b => b.bumped_on ≤ a.bumped_on) := by
  have h := @List.sorted_insertionSort Thread (fun a b => b.bumped_on ≤ a.bumped_on)
    (fun a b => Nat.decLe _ _)
    ⟨fun a b => Nat.le_total b.bumped_on a.bumped_on⟩
    ⟨fun a b c hab hbc => Nat.le_trans hbc hab⟩ ts
  exact h

theorem threadsDesc_perm (ts : List Thread) : (threadsDesc ts).Perm ts :=
  List.perm_insertionSort _ ts

theorem repliesDesc_sorted (rs : List Reply) :
    (repliesDesc rs).Pairwise (fun a b => b.created_on ≤ a.created_on) := by
  have h := @List.sorted_insertionSort Reply (fun a b => b.created_on ≤ a.created_on)
    (fun a b => Nat.decLe _ _)
    ⟨fun a b => Nat.le_total b.created_on a.created_on⟩
    ⟨fun a b c hab hbc => Nat.le_trans hbc hab⟩ rs
  exact h

theorem repliesDesc_perm (rs : List Reply) : (repliesDesc rs).Perm rs :=
  List.perm_insertionSort _ rs

theorem mem_boardWindow {t : Thread} {s : State} {b : String} {L : Nat}
    (h : t ∈ boardWindow s b L) : t ∈ s.threads ∧ t.board = b := by
  have h1 := List.mem_of_mem_take h
  have h2 := (threadsDesc_perm _).mem_iff.mp h1
  have h3 := List.mem_filter.mp h2
  exact ⟨h3.1, by simpa using h3.2⟩

theorem boardWindow_sorted (s : State) (b : String) (L : Nat) :
    (boardWindow s b L).Pairwise (fun a c => c.bumped_on ≤ a.bumped_on) :=
  List.Pairwise.sublist (List.take_sublist _ _) (threadsDesc_sorted _)

theorem boardWindow_length (s : State) (b : String) (L : Nat) :
    (boardWindow s b L).length ≤ L := by
  simp only [boardWindow, List.length_take]
  omega

theorem getRecentThreads_fst (s : State) (b : String) (L : Nat) :
    (getRecentThreads s b L).1 = (boardWindow s b L).map threadView := rfl

/-- Concrete store used to evaluate the theorems on a sample input: one
thread on board `"b"` whose stored replies are out of recency order. -/
def rep1 : Reply :=
  { reply_id := 1, text := some "a", delete_password := bcryptHash "p1",
    created_on := 1, reported := false }

def rep2 : Reply :=
  { reply_id := 2, text := some "b", delete_password := bcryptHash "p2",
    created_on := 2, reported := false }

def thr1 : Thread :=
  { _id := 1, board := "b", text := "t", delete_password := bcryptHash "pw",
    created_on := 0, bumped_on := 0, reported := false, replies := [rep1, rep2] }

def sampleState : State := { threads := [thr1], nextThreadId := 2, nextReplyId := 3 }

/-- Claim C5: for every board `b` and limit `L ≤ 10`, the listing returns
at most `L` thread views, every view's board equals `b`, and the views
are ordered non-increasing by `bumped_on`. -/
theorem getRecentThreads_window_spec (s : State) (b : String) (L : Nat) (hL : L ≤ 10) :
    (getRecentThreads s b L).1.length ≤ L ∧
    (∀ v ∈ (getRecentThreads s b L).1, viewBoard v = some b) ∧
    (getRecentThreads s b L).1.Pairwise (fun v w => viewBumped w ≤ viewBumped v) := by
  refine ⟨?_, ?_, ?_⟩
  · rw [getRecentThreads_fst, List.length_map]
    exact boardWindow_length s b L
  · intro v hv
    rw [getRecentThreads_fst] at hv
    obtain ⟨t, ht, rfl⟩ := List.mem_map.mp hv
    rw [viewBoard_threadView, (mem_boardWindow ht).2]
  · rw [getRecentThreads_fst, List.pairwise_map]
    exact boardWindow_sorted s b L

/-- Witness for C5 at the sample store. -/
theorem getRecentThreads_window_spec_witness :
    10 ≤ 10 ∧
    ((getRecentThreads sampleState "b" 10).1.length ≤ 10 ∧
     (∀ v ∈ (getRecentThreads sampleState "b" 10).1, viewBoard v = some "b") ∧
     (getRecentThreads sampleState "b" 10).1.Pairwise
       (fun v w => viewBumped w ≤ viewBumped v)) :=
  ⟨by decide, getRecentThreads_window_spec sampleState "b" 10 (by decide)⟩

/-- Claim C6: every returned thread view carries a replies array of
length at most 3, sorted descending by the replies creation time. -/
theorem getRecentThreads_replies_spec (s : State) (b : String) (L : Nat) :
    ∀ v ∈ (getRecentThreads s b L).1, ∃ rs, viewReplies v = some rs ∧ rs.length ≤ 3 ∧
      rs.Pairwise (fun x y => replyCreated y ≤ replyCreated x) := by
  intro v hv
  rw [getRecentThreads_fst] at hv
  obtain ⟨t, ht, rfl⟩ := List.mem_map.mp hv
  refine ⟨_, viewReplies_threadView t, ?_, ?_⟩
  · rw [List.length_map]
    simp only [List.length_take]
    omega
  · rw [List.pairwise_map]
    have hs := List.Pairwise.sublist (List.take_sublist 3 _) (repliesDesc_sorted t.replies)
    exact hs.imp (by intro a c h; simpa [replyCreated_replyView] using h)

/-- Witness for C6 at the sample store. -/
theorem getRecentThreads_replies_spec_witness :
    ∃ rs, viewReplies (threadView thr1) = some rs ∧ rs.length ≤ 3 ∧
      rs.Pairwise (fun x y => replyCreated y ≤ replyCreated x) := by
  have hlist : (getRecentThreads sampleState "b" 10).1 = [threadView thr1] := rfl
  have hm : threadView thr1 ∈ (getRecentThreads sampleState "b" 10).1 := by
    rw [hlist]; exact List.mem_singleton.mpr rfl
  exact getRecentThreads_replies_spec sampleState "b" 10 (threadView thr1) hm

/-- Claim C2 (amended): the listing preserves the id counters, the number
and order of threads, and every thread field, except that a selected
thread's stored replies may come back re-sorted in place — the replies
collection is preserved only up to permutation. -/
theorem getRecentThreads_frame (s : State) (b : String) (L : Nat) :
    (getRecentThreads s b L).2.nextThreadId = s.nextThreadId ∧
    (getRecentThreads s b L).2.nextReplyId = s.nextReplyId ∧
    List.Forall₂ (fun t t' : Thread =>
        t'._id = t._id ∧ t'.board = t.board ∧ t'.text = t.text ∧
        t'.delete_password = t.delete_password ∧ t'.created_on = t.created_on ∧
        t'.bumped_on = t.bumped_on ∧ t'.reported = t.reported ∧
        t'.replies.Perm t.replies)
      s.threads (getRecentThreads s b L).2.threads := by
  refine ⟨rfl, rfl, ?_⟩
  have hsnd : (getRecentThreads s b L).2.threads =
      s.threads.map (fun t =>
        if t ∈ boardWindow s b L then { t with replies := repliesDesc t.replies } else t) := rfl
  rw [hsnd, List.forall₂_map_right_iff]
  rw [List.forall₂_same]
  intro t _
  by_cases hm : t ∈ boardWindow s b L <;>
    simp [hm, repliesDesc_perm, List.Perm.refl]

/-- Counterexample to C2 as stated: listing board `"b"` re-sorts the
sample thread's stored replies in place, so the store differs after the
call. -/
theorem getRecentThreads_mutates_cex :
    (getRecentThreads sampleState "b" 10).2 ≠ sampleState := by decide

theorem postThread_cases (s : State) (p : String) (b : ThreadPostBody) (now : Nat) :
    ((postThread s p b now).1.status = 400 ∧ (postThread s p b now).2 = s) ∨
    ((postThread s p b now).1.status = 201 ∧
      (postThread s p b now).2.nextThreadId = s.nextThreadId + 1 ∧
      (postThread s p b now).2.nextReplyId = s.nextReplyId) := by
  unfold postThread
  split
  · exact Or.inl ⟨rfl, rfl⟩
  · split
    · exact Or.inr ⟨rfl, rfl, rfl⟩
    · exact Or.inl ⟨rfl, rfl⟩

theorem postReply_cases (s : State) (b : String) (tid : Nat) (text pw : Option String)
    (now : Nat) :
    (((postReply s b tid text pw now).1.status = 404 ∨
      (postReply s b tid text pw now).1.status = 500) ∧
      (postReply s b tid text pw now).2 = s) ∨
    ((postReply s b tid text pw now).1.status = 201 ∧
      (postReply s b tid text pw now).2.nextReplyId = s.nextReplyId + 1 ∧
      (postReply s b tid text pw now).2.nextThreadId = s.nextThreadId) := by
  unfold postReply
  split
  · exact Or.inl ⟨Or.inl rfl, rfl⟩
  · split
    · exact Or.inl ⟨Or.inr rfl, rfl⟩
    · exact Or.inr ⟨rfl, rfl, rfl⟩

theorem getThreads_counters (s : State) (b : String) :
    (getThreads s b).2.nextThreadId = s.nextThreadId ∧
    (getThreads s b).2.nextReplyId = s.nextReplyId := ⟨rfl, rfl⟩

theorem deleteThread_counters (s : State) (b : String) (tid : Nat) (pw : String) :
    (deleteThread s b tid pw).2.nextThreadId = s.nextThreadId ∧
    (deleteThread s b tid pw).2.nextReplyId = s.nextReplyId := by
  unfold deleteThread
  split
  · exact ⟨rfl, rfl⟩
  · split
    · exact ⟨rfl, rfl⟩
    · exact ⟨rfl, rfl⟩

theorem deleteReply_counters (s : State) (b : String) (tid rid : Nat) (pw : String) :
    (deleteReply s b tid rid pw).2.nextThreadId = s.nextThreadId ∧
    (deleteReply s b tid rid pw).2.nextReplyId = s.nextReplyId := by
  unfold deleteReply
  split
  · exact ⟨rfl, rfl⟩
  · split
    · exact ⟨rfl, rfl⟩
    · split
      · exact ⟨rfl, rfl⟩
      · exact ⟨rfl, rfl⟩

theorem reportThread_counters (s : State) (b : String) (tid : Nat) :
    (reportThread s b tid).2.nextThreadId = s.nextThreadId ∧
    (reportThread s b tid).2.nextReplyId = s.nextReplyId := by
  unfold reportThread
  split
  · exact ⟨rfl, rfl⟩
  · exact ⟨rfl, rfl⟩

theorem reportReply_counters (s : State) (b : String) (tid rid : Nat) :
    (reportReply s b tid rid).2.nextThreadId = s.nextThreadId ∧
    (reportReply s b tid rid).2.nextReplyId = s.nextReplyId := by
  unfold reportReply
  split
  · exact ⟨rfl, rfl⟩
  · split
    · exact ⟨rfl, rfl⟩
    · exact ⟨rfl, rfl⟩

theorem applyOp_threadId_cases (s : State) (op : Op) :
    (threadIdHead s op = [] ∧ ((applyOp s op).2).nextThreadId = s.nextThreadId) ∨
    (threadIdHead s op = [s.nextThreadId] ∧
      ((applyOp s op).2).nextThreadId = s.nextThreadId + 1) := by
  cases op with
  | getOp board => exact Or.inl ⟨rfl, (getThreads_counters s board).1⟩
  | postOp pathBoard body now =>
    rcases postThread_cases s pathBoard body now with ⟨h1, h2⟩ | ⟨h1, h2, _⟩
    · refine Or.inl ⟨?_, ?_⟩
      · simp [threadIdHead, h1]
      · show (postThread s pathBoard body now).2.nextThreadId = s.nextThreadId
        rw [h2]
    · refine Or.inr ⟨?_, ?_⟩
      · simp [threadIdHead, h1]
      · exact h2
  | deleteThreadOp board tid pw => exact Or.inl ⟨rfl, (deleteThread_counters s board tid pw).1⟩
  | replyOp board tid text pw now =>
    rcases postReply_cases s board tid text pw now with ⟨_, h2⟩ | ⟨_, _, h3⟩
    · refine Or.inl ⟨rfl, ?_⟩
      show (postReply s board tid text pw now).2.nextThreadId = s.nextThreadId
      rw [h2]
    · exact Or.inl ⟨rfl, h3⟩
  | deleteReplyOp board tid rid pw =>
    exact Or.inl ⟨rfl, (deleteReply_counters s board tid rid pw).1⟩
  | reportThreadOp board tid => exact Or.inl ⟨rfl, (reportThread_counters s board tid).1⟩
  | reportReplyOp board tid rid => exact Or.inl ⟨rfl, (reportReply_counters s board tid rid).1⟩

theorem applyOp_replyId_cases (s : State) (op : Op) :
    (replyIdHead s op = [] ∧ ((applyOp s op).2).nextReplyId = s.nextReplyId) ∨
    (replyIdHead s op = [s.nextReplyId] ∧
      ((applyOp s op).2).nextReplyId = s.nextReplyId + 1) := by
  cases op with
  | getOp board => exact Or.inl ⟨rfl, (getThreads_counters s board).2⟩
  | postOp pathBoard body now =>
    rcases postThread_cases s pathBoard body now with ⟨_, h2⟩ | ⟨_, _, h3⟩
    · refine Or.inl ⟨rfl, ?_⟩
      show (postThread s pathBoard body now).2.nextReplyId = s.nextReplyId
      rw [h2]
    · exact Or.inl ⟨rfl, h3⟩
  | deleteThreadOp board tid pw => exact Or.inl ⟨rfl, (deleteThread_counters s board tid pw).2⟩
  | replyOp board tid text pw now =>
    rcases postReply_cases s board tid text pw now with ⟨h1, h2⟩ | ⟨h1, h2, _⟩
    · refine Or.inl ⟨?_, ?_⟩
      · rcases h1 with h1 | h1 <;> simp [replyIdHead, h1]
      · show (postReply s board tid text pw now).2.nextReplyId = s.nextReplyId
        rw [h2]
    · refine Or.inr ⟨?_, ?_⟩
      · simp [replyIdHead, h1]
      · exact h2
  | deleteReplyOp board tid rid pw =>
    exact Or.inl ⟨rfl, (deleteReply_counters s board tid rid pw).2⟩
  | reportThreadOp board tid => exact Or.inl ⟨rfl, (reportThread_counters s board tid).2⟩
  | reportReplyOp board tid rid => exact Or.inl ⟨rfl, (reportReply_counters s board tid rid).2⟩

theorem nextThreadId_le_applyOp (s : State) (op : Op) :
    s.nextThreadId ≤ ((applyOp s op).2).nextThreadId := by
  rcases applyOp_threadId_cases s op with ⟨_, h⟩ | ⟨_, h⟩ <;> omega

theorem nextReplyId_le_applyOp (s : State) (op : Op) :
    s.nextReplyId ≤ ((applyOp s op).2).nextReplyId := by
  rcases applyOp_replyId_cases s op with ⟨_, h⟩ | ⟨_, h⟩ <;> omega

theorem nextThreadId_le_runOps (s : State) (ops : List Op) :
    s.nextThreadId ≤ (runOps s ops).nextThreadId := by
  induction ops generalizing s with
  | nil => exact Nat.le_refl _
  | cons op ops ih => exact Nat.le_trans (nextThreadId_le_applyOp s op) (ih (applyOp s op).2)

theorem nextReplyId_le_runOps (s : State) (ops : List Op) :
    s.nextReplyId ≤ (runOps s ops).nextReplyId := by
  induction ops generalizing s with
  | nil => exact Nat.le_refl _
  | cons op ops ih => exact Nat.le_trans (nextReplyId_le_applyOp s op) (ih (applyOp s op).2)

theorem threadIds_facts (ops : List Op) : ∀ s : State,
    (threadIdsIssued s ops).Pairwise (fun a b => a < b) ∧
    (∀ i ∈ threadIdsIssued s ops, s.nextThreadId ≤ i ∧ i < (runOps s ops).nextThreadId) := by
  induction ops with
  | nil =>
    intro s
    refine ⟨List.Pairwise.nil, ?_⟩
    intro i hi
    simp [threadIdsIssued] at hi
  | cons op ops ih =>
    intro s
    obtain ⟨ihp, ihb⟩ := ih (applyOp s op).2
    have hre : runOps s (op :: ops) = runOps (applyOp s op).2 ops := rfl
    have hunfold : threadIdsIssued s (op :: ops) =
        threadIdHead s op ++ threadIdsIssued (applyOp s op).2 ops := rfl
    rcases applyOp_threadId_cases s op with ⟨h1, h2⟩ | ⟨h1, h2⟩
    · rw [hunfold, h1, List.nil_append]
      refine ⟨ihp, ?_⟩
      intro i hi
      have hb := ihb i hi
      rw [hre]
      omega
    · rw [hunfold, h1, List.singleton_append]
      refine ⟨?_, ?_⟩
      · refine List.Pairwise.cons ?_ ihp
        intro j hj
        have hb := (ihb j hj).1
        omega
      · intro i hi
        rw [hre]
        rcases List.mem_cons.mp hi with rfl | htail
        · have hm := nextThreadId_le_runOps (applyOp s op).2 ops
          exact ⟨Nat.le_refl _, by omega⟩
        · have hb := ihb i htail
          omega

theorem replyIds_facts (ops : List Op) : ∀ s : State,
    (replyIdsIssued s ops).Pairwise (fun a b => a < b) ∧
    (∀ i ∈ replyIdsIssued s ops, s.nextReplyId ≤ i ∧ i < (runOps s ops).nextReplyId) := by
  induction ops with
  | nil =>
    intro s
    refine ⟨List.Pairwise.nil, ?_⟩
    intro i hi
    simp [replyIdsIssued] at hi
  | cons op ops ih =>
    intro s
    obtain ⟨ihp, ihb⟩ := ih (applyOp s op).2
    have hre : runOps s (op :: ops) = runOps (applyOp s op).2 ops := rfl
    have hunfold : replyIdsIssued s (op :: ops) =
        replyIdHead s op ++ replyIdsIssued (applyOp s op).2 ops := rfl
    rcases applyOp_replyId_cases s op with ⟨h1, h2⟩ | ⟨h1, h2⟩
    · rw [hunfold, h1, List.nil_append]
      refine ⟨ihp, ?_⟩
      intro i hi
      have hb := ihb i hi
      rw [hre]
      omega
    · rw [hunfold, h1, List.singleton_append]
      refine ⟨?_, ?_⟩
      · refine List.Pairwise.cons ?_ ihp
        intro j hj
        have hb := (ihb j hj).1
        omega
      · intro i hi
        rw [hre]
        rcases List.mem_cons.mp hi with rfl | htail
        · have hm := nextReplyId_le_runOps (applyOp s op).2 ops
          exact ⟨Nat.le_refl _, by omega⟩
        · have hb := ihb i htail
          omega

/-- Claim C7: across any request sequence, thread identifiers are issued
in strictly increasing order and never repeat, and likewise reply
identifiers; in particular creating N threads, deleting one, and
creating another yields N+1 pairwise distinct identifiers. -/
theorem identifiers_monotone (s : State) (ops : List Op) :
    ((threadIdsIssued s ops).Pairwise (fun a b => a < b) ∧ (threadIdsIssued s ops).Nodup) ∧
    ((replyIdsIssued s ops).Pairwise (fun a b => a < b) ∧ (replyIdsIssued s ops).Nodup) := by
  obtain ⟨htp, -⟩ := threadIds_facts ops s
  obtain ⟨hrp, -⟩ := replyIds_facts ops s
  exact ⟨⟨htp, htp.imp (fun h => Nat.ne_of_lt h)⟩, ⟨hrp, hrp.imp (fun h => Nat.ne_of_lt h)⟩⟩

theorem updateFirst_of_find? {α : Type} {p : α → Bool} {f : α → α} :
    ∀ {l : List α} {a : α}, l.find? p = some a →
      ∃ l₁ l₂, l = l₁ ++ a :: l₂ ∧ (∀ x ∈ l₁, p x = false) ∧
        updateFirst p f l = l₁ ++ f a :: l₂ := by
  intro l
  induction l with
  | nil => intro a h; simp [List.find?] at h
  | cons x xs ih =>
    intro a h
    by_cases hp : p x
    · have hx : x = a := by
        rw [List.find?_cons_of_pos _ hp] at h
        exact Option.some.inj h
      subst hx
      exact ⟨[], xs, rfl, by simp, by simp [updateFirst, hp]⟩
    · rw [List.find?_cons_of_neg _ hp] at h
      obtain ⟨l₁, l₂, heq, hall, hupd⟩ := ih h
      refine ⟨x :: l₁, l₂, by simp [heq], ?_, by simp [updateFirst, hp, hupd]⟩
      intro y hy
      rcases List.mem_cons.mp hy with rfl | hmem
      · simpa using hp
      · exact hall y hmem

theorem findWithIdx_spec {α : Type} {p : α → Bool} :
    ∀ {l : List α} {i : Nat} {a : α}, findWithIdx p l = some (i, a) →
      l[i]? = some a ∧ p a = true := by
  intro l
  induction l with
  | nil => intro i a h; simp [findWithIdx] at h
  | cons x xs ih =>
    intro i a h
    by_cases hp : p x
    · simp only [findWithIdx, hp, if_pos] at h
      obtain ⟨rfl, rfl⟩ : i = 0 ∧ a = x := by
        have := Option.some.inj h
        exact ⟨(congrArg Prod.fst this).symm, (congrArg Prod.snd this).symm⟩
      exact ⟨by simp, hp⟩
    · simp only [findWithIdx, hp, if_neg, Bool.false_eq_true, not_false_iff] at h
      obtain ⟨⟨j, b⟩, hjb, hmap⟩ := Option.map_eq_some'.mp h
      obtain ⟨rfl, rfl⟩ : i = j + 1 ∧ a = b := by
        exact ⟨(congrArg Prod.fst hmap).symm, (congrArg Prod.snd hmap).symm⟩
      have := ih hjb
      simpa using this

/-- Claim C3 (amended): create_reply performs no validation of text or
secret: whenever the referenced thread exists and a delete_password
string is present — even the empty string, and even with empty or
missing text — it returns 201 and appends the reply to that thread;
there is no 400 rejection path. -/
theorem postReply_no_validation (s : State) (board : String) (tid : Nat)
    (text : Option String) (pw : String) (now : Nat) (thread : Thread)
    (hfind : findThread s tid board = some thread) :
    (postReply s board tid text (some pw) now).1.status = 201 ∧
    ∃ l₁ l₂, s.threads = l₁ ++ thread :: l₂ ∧
      (postReply s board tid text (some pw) now).2.threads =
        l₁ ++ { thread with
                  replies := thread.replies ++
                    [{ reply_id := s.nextReplyId, text := text,
                       delete_password := bcryptHash pw, created_on := now,
                       reported := false }],
                  bumped_on := now } :: l₂ := by
  have hfind' : s.threads.find? (fun t => t._id == tid && t.board == board) = some thread :=
    hfind
  obtain ⟨l₁, l₂, heq, -, hupd⟩ := updateFirst_of_find?
    (f := fun t => { t with
        replies := t.replies ++
          [{ reply_id := s.nextReplyId, text := text,
             delete_password := bcryptHash pw, created_on := now,
             reported := false }],
        bumped_on := now })
    hfind'
  refine ⟨by simp [postReply, hfind], l₁, l₂, heq, ?_⟩
  simp only [postReply, hfind]
  exact hupd

/-- Counterexample to C3 as stated: with the sample thread present, a
reply with empty text and empty delete_password is accepted with 201
and stored, where the claim requires a 400 rejection with no change. -/
theorem postReply_empty_accepted_cex :
    (postReply sampleState "b" 1 (some "") (some "") 5).1.status = 201 ∧
    (postReply sampleState "b" 1 (some "") (some "") 5).2 ≠ sampleState :=
  ⟨rfl, by decide⟩

/-- Witness for the amended C3 at the sample store: an empty-text,
empty-secret reply is accepted with 201. -/
theorem postReply_no_validation_witness :
    (postReply sampleState "b" 1 (some "") (some "") 5).1.status = 201 :=
  (postReply_no_validation sampleState "b" 1 (some "") "" 5 thr1 (by decide)).1

/-- Claim C4: deleting a thread returns 404 with the store unchanged when
no thread with that id exists on the board; returns 403 with the store
unchanged when the secret does not match; and with the matching secret
returns 200, removes the thread, and a subsequent listing of the board
no longer contains its identifier. -/
theorem deleteThread_spec (s : State) (board : String) (tid : Nat) (pw : String) :
    (findThread s tid board = none →
      (deleteThread s board tid pw).1.status = 404 ∧ (deleteThread s board tid pw).2 = s) ∧
    (∀ thread, findThread s tid board = some thread →
      bcryptCompare pw thread.delete_password = false →
      (deleteThread s board tid pw).1.status = 403 ∧ (deleteThread s board tid pw).2 = s) ∧
    (∀ thread, findThread s tid board = some thread →
      bcryptCompare pw thread.delete_password = true →
      (deleteThread s board tid pw).1.status = 200 ∧
      (∀ t ∈ (deleteThread s board tid pw).2.threads, ¬(t._id = tid ∧ t.board = board)) ∧
      (∀ L v, v ∈ (getRecentThreads (deleteThread s board tid pw).2 board L).1 →
        viewId v ≠ some tid)) := by
  refine ⟨?_, ?_, ?_⟩
  · intro h
    exact ⟨by simp [deleteThread, h], by simp [deleteThread, h]⟩
  · intro thread hf hc
    exact ⟨by simp [deleteThread, hf, hc], by simp [deleteThread, hf, hc]⟩
  · intro thread hf hc
    have hmem : ∀ t ∈ (deleteThread s board tid pw).2.threads,
        ¬(t._id = tid ∧ t.board = board) := by
      intro t ht
      have ht' : t ∈ s.threads.filter (fun t => t._id != tid || t.board != board) := by
        simpa [deleteThread, hf, hc] using ht
      have hq := (List.mem_filter.mp ht').2
      simp only [Bool.or_eq_true, bne_iff_ne] at hq
      rintro ⟨h1, h2⟩
      rcases hq with hq | hq
      · exact hq h1
      · exact hq h2
    refine ⟨by simp [deleteThread, hf, hc], hmem, ?_⟩
    intro L v hv
    rw [getRecentThreads_fst] at hv
    obtain ⟨t, htw, rfl⟩ := List.mem_map.mp hv
    obtain ⟨hts, htb⟩ := mem_boardWindow htw
    rw [viewId_threadView]
    intro hsome
    have hid : t._id = tid := Option.some.inj (by simpa using hsome)
    exact hmem t hts ⟨hid, htb⟩

/-- Witness for C4 at the sample store: a missing id gives 404, a wrong
secret 403, and the matching secret 200. -/
theorem deleteThread_spec_witness :
    (deleteThread sampleState "b" 9 "pw").1.status = 404 ∧
    (deleteThread sampleState "b" 1 "wrong").1.status = 403 ∧
    (deleteThread sampleState "b" 1 "pw").1.status = 200 := by
  refine ⟨?_, ?_, ?_⟩
  · exact ((deleteThread_spec sampleState "b" 9 "pw").1 (by decide)).1
  · exact ((deleteThread_spec sampleState "b" 1 "wrong").2.1 thr1 (by decide) (by decide)).1
  · exact ((deleteThread_spec sampleState "b" 1 "pw").2.2 thr1 (by decide) (by decide)).1

/-- Claim C8: deleting a reply with the matching secret removes exactly
the addressed reply: the parent thread keeps its place and every other
field (identifier, bump time, board, text, secret, reported flag), and
the sibling replies before and after the removed index survive
unchanged and in order; the id counters are untouched. -/
theorem deleteReply_spec (s : State) (board : String) (tid rid : Nat) (pw : String)
    (thread : Thread) (i : Nat) (reply : Reply)
    (hfind : findThread s tid board = some thread)
    (hidx : findWithIdx (fun r => r.reply_id == rid) thread.replies = some (i, reply))
    (hpw : bcryptCompare pw reply.delete_password = true) :
    (deleteReply s board tid rid pw).1.status = 200 ∧
    reply.reply_id = rid ∧
    thread.replies[i]? = some reply ∧
    (deleteReply s board tid rid pw).2.nextThreadId = s.nextThreadId ∧
    (deleteReply s board tid rid pw).2.nextReplyId = s.nextReplyId ∧
    ∃ l₁ l₂, s.threads = l₁ ++ thread :: l₂ ∧
      (deleteReply s board tid rid pw).2.threads =
        l₁ ++ { thread with
                  replies := thread.replies.take i ++ thread.replies.drop (i + 1) } :: l₂ := by
  obtain ⟨hget, hpa⟩ := findWithIdx_spec hidx
  have hfind' : s.threads.find? (fun t => t._id == tid && t.board == board) = some thread :=
    hfind
  obtain ⟨l₁, l₂, heq, -, hupd⟩ := updateFirst_of_find?
    (f := fun t => { t with replies := t.replies.eraseIdx i }) hfind'
  refine ⟨by simp [deleteReply, hfind, hidx, hpw], by simpa using hpa, hget,
    (deleteReply_counters s board tid rid pw).1,
    (deleteReply_counters s board tid rid pw).2, l₁, l₂, heq, ?_⟩
  have hthreads : (deleteReply s board tid rid pw).2.threads =
      updateFirst (fun t => t._id == tid && t.board == board)
        (fun t => { t with replies := t.replies.eraseIdx i }) s.threads := by
    simp [deleteReply, hfind, hidx, hpw]
  rw [hthreads, hupd, List.eraseIdx_eq_take_drop_succ]

/-- Witness for C8 at the sample store: deleting reply 1 of thread 1 with
its own secret succeeds. -/
theorem deleteReply_spec_witness :
    (deleteReply sampleState "b" 1 1 "p1").1.status = 200 ∧
    rep1.reply_id = 1 ∧ thr1.replies[0]? = some rep1 := by
  have h := deleteReply_spec sampleState "b" 1 1 "p1" thr1 0 rep1
    (by decide) (by decide) (by decide)
  exact ⟨h.1, h.2.1, h.2.2.1⟩

/-- True when no key of the object is `delete_password` or `reported`. -/
def fieldsClean (fields : List (String × Json)) : Bool :=
  fields.all (fun kv => kv.1 != "delete_password" && kv.1 != "reported")

/-- True when the object and every object inside an array-valued
property (the replies) carry neither secret nor reported key. -/
def objClean (fields : List (String × Json)) : Bool :=
  fieldsClean fields &&
  fields.all (fun kv =>
    match kv.2 with
    | Json.arr rs => rs.all (fun rj =>
        match rj with
        | Json.obj rfields => fieldsClean rfields
        | _ => true)
    | _ => true)

/-- True when every thread or reply object in the response body is
redacted. -/
def respClean (r : Resp) : Bool :=
  match r.body with
  | Json.obj fields => objClean fields
  | Json.arr elems => elems.all (fun e =>
      match e with
      | Json.obj fields => objClean fields
      | _ => true)
  | _ => true

theorem fieldsClean_jsDelete (fields : List (String × Json)) :
    fieldsClean (jsDelete "reported" (jsDelete "delete_password" fields)) = true := by
  simp only [fieldsClean, jsDelete, List.all_eq_true]
  intro kv hkv
  have h1 := List.mem_filter.mp hkv
  have h2 := List.mem_filter.mp h1.1
  simp only [Bool.and_eq_true]
  exact ⟨h2.2, h1.2⟩

theorem fieldsClean_replyView (r : Reply) : fieldsClean (replyView r) = true :=
  fieldsClean_jsDelete (replyJsonFull r)

theorem objClean_replyView (r : Reply) : objClean (replyView r) = true := by
  rcases r with ⟨rid, text, dp, co, rep⟩
  cases text <;> rfl

theorem objClean_threadView (t : Thread) : objClean (threadView t) = true := by
  have h1 : objClean (threadView t) =
      ((((repliesDesc t.replies).take 3).map (fun r => Json.obj (replyView r))).all
        (fun rj => match rj with
          | Json.obj rfields => fieldsClean rfields
          | _ => true) && true) := rfl
  rw [h1, Bool.and_true, List.all_eq_true]
  intro x hx
  obtain ⟨r, -, rfl⟩ := List.mem_map.mp hx
  exact fieldsClean_replyView r

theorem respClean_getThreads (s : State) (b : String) :
    respClean (getThreads s b).1 = true := by
  have h1 : respClean (getThreads s b).1 =
      ((((boardWindow s b 10).map threadView).map Json.obj).all
        (fun e => match e with
          | Json.obj fields => objClean fields
          | _ => true)) := rfl
  rw [h1, List.all_eq_true]
  intro x hx
  obtain ⟨v, hv, rfl⟩ := List.mem_map.mp hx
  obtain ⟨t, -, rfl⟩ := List.mem_map.mp hv
  exact objClean_threadView t

theorem respClean_postThread (s : State) (p : String) (body : ThreadPostBody) (now : Nat) :
    respClean (postThread s p body now).1 = true := by
  unfold postThread
  split
  · rfl
  · split
    · rfl
    · rfl

theorem respClean_postReply (s : State) (b : String) (tid : Nat)
    (text pw : Option String) (now : Nat) :
    respClean (postReply s b tid text pw now).1 = true := by
  unfold postReply
  split
  · rfl
  · split
    · rfl
    · exact objClean_replyView _

/-- Claim C1: every response of the three payload-returning operations —
listing threads, creating a thread, creating a reply — is redacted: no
thread object and no reply object in the body carries a
`delete_password` or `reported` key, unconditionally. -/
theorem redaction_unconditional (s : State) (b pathB rb : String) (body : ThreadPostBody)
    (tid : Nat) (text pw : Option String) (now now2 : Nat) :
    respClean (getThreads s b).1 = true ∧
    respClean (postThread s pathB body now).1 = true ∧
    respClean (postReply s rb tid text pw now2).1 = true :=
  ⟨respClean_getThreads s b, respClean_postThread s pathB body now,
    respClean_postReply s rb tid text pw now2⟩

/-- Fields of an object-shaped response body. -/
def respObjFields (r : Resp) : List (String × Json) :=
  match r.body with
  | Json.obj fields => fields
  | _ => []

/-- Claim C9 (code bug): from the empty store, POST /threads/test with
body `{text: "hello", delete_password: "pw"}` is rejected with 400 and
the store is unchanged, because the handler requires `board` in the
request body and ignores the path segment; moreover even a successful
creation names the identifier `_id` — there is no `thread_id` field,
although the repository's own functional tests assert one. -/
theorem postThread_missing_board_rejected :
    ((postThread emptyState "test"
        { board := none, text := some "hello", delete_password := some "pw" } 0).1.status
      = 400 ∧
     (postThread emptyState "test"
        { board := none, text := some "hello", delete_password := some "pw" } 0).2
      = emptyState) ∧
    (jsonField (respObjFields (postThread emptyState "test"
        { board := some "test", text := some "hello", delete_password := some "pw" } 0).1)
        "thread_id" = none ∧
     jsonField (respObjFields (postThread emptyState "test"
        { board := some "test", text := some "hello", delete_password := some "pw" } 0).1)
        "_id" = some (Json.num 1) ∧
     (postThread emptyState "test"
        { board := some "test", text := some "hello", delete_password := some "pw" } 0).1.status
      = 201) :=
  ⟨⟨rfl, rfl⟩, rfl, rfl, rfl⟩

/-- Claim C10: thread creation takes the board from the request body and
ignores the `:board` path segment — any two paths give identical
results, a body without board is rejected with 400 even though the path
names a board, and a valid body creates the thread on the body's board
whatever the path says. -/
theorem postThread_board_from_body (s : State) (p q : String) (body : ThreadPostBody)
    (now : Nat) :
    postThread s p body now = postThread s q body now ∧
    (body.board = none → (postThread s p body now).1.status = 400 ∧
      (postThread s p body now).2 = s) ∧
    (∀ b text pw,
      body = { board := some b, text := some text, delete_password := some pw } →
      b ≠ "" → text ≠ "" → pw ≠ "" →
      (postThread s p body now).1.status = 201 ∧
      (postThread s p body now).2.threads = s.threads ++
        [{ _id := s.nextThreadId, board := b, text := text,
           delete_password := bcryptHash pw, created_on := now, bumped_on := now,
           reported := false, replies := [] }]) := by
  refine ⟨rfl, ?_, ?_⟩
  · intro h
    exact ⟨by simp [postThread, falsy, h], by simp [postThread, falsy, h]⟩
  · rintro b text pw rfl hb htext hpw
    constructor
    · simp [postThread, falsy, hb, htext, hpw]
    · simp [postThread, falsy, hb, htext, hpw]

/-- Witness for C10: a concrete post whose body names a different board
than the path creates the thread on the body's board. -/
theorem postThread_board_from_body_witness :
    (postThread emptyState "pathX"
        { board := some "bodyBoard", text := some "hello", delete_password := some "pw" }
        0).1.status = 201 ∧
    (postThread emptyState "pathX"
        { board := some "bodyBoard", text := some "hello", delete_password := some "pw" }
        0).2.threads =
      [{ _id := 1, board := "bodyBoard", text := "hello",
         delete_password := bcryptHash "pw", created_on := 0, bumped_on := 0,
         reported := false, replies := [] }] :=
  (postThread_board_from_body emptyState "pathX" "pathY"
    { board := some "bodyBoard", text := some "hello", delete_password := some "pw" } 0).2.2
    "bodyBoard" "hello" "pw" rfl (by decide) (by decide) (by decide)

end MessageBoard
